import Mathlib

/-!
Verification development for the s3-demo repository.

The subject is the log ingestion pipeline of the logs API route
(the `GET` handler polling SQS, unwrapping SNS envelopes and classifying
severity with `determineLogLevel`) and the `DELETE` handler of the S3 route.

JavaScript runtime behaviour relevant to that code is embedded explicitly:
JSON values, `JSON.parse` / `JSON.stringify`, truthiness, `||` defaulting,
property access (which throws on `null`), and string coercion.
-/

namespace S3Demo

/-- The opening brace character. -/
def lbrace : Char := Char.ofNat 123

/-- The closing brace character. -/
def rbrace : Char := Char.ofNat 125

mutual
/-- A JavaScript JSON value.  Numbers keep their source lexeme: none of the
modelled code depends on numeric magnitude beyond zero-ness. -/
inductive Json : Type where
  | null : Json
  | bool : Bool → Json
  | num : String → Json
  | str : String → Json
  | arr : JsonList → Json
  | obj : JsonFields → Json

/-- A list of JSON values (array elements). -/
inductive JsonList : Type where
  | nil : JsonList
  | cons : Json → JsonList → JsonList

/-- Object fields, in insertion order, keys unique (duplicates collapsed at
parse time like JavaScript object literals). -/
inductive JsonFields : Type where
  | nil : JsonFields
  | cons : String → Json → JsonFields → JsonFields
end

/-- First field with the given key. -/
def lookupField : JsonFields → String → Option Json
  | .nil, _ => none
  | .cons k0 v0 tl, k => if k0 = k then some v0 else lookupField tl k

/-- Insert a field like JavaScript object construction: an existing key is
overwritten in place, a new key is appended. -/
def objInsert : JsonFields → String → Json → JsonFields
  | .nil, k, v => .cons k v .nil
  | .cons k0 v0 tl, k, v =>
    if k0 = k then .cons k0 v tl else .cons k0 v0 (objInsert tl k v)

/-- Whether a numeric lexeme denotes zero: no nonzero digit in the mantissa
(everything before the exponent marker). -/
def numIsZero (lex : String) : Bool :=
  (lex.data.takeWhile (fun c => !(c == 'e' || c == 'E'))).all
    (fun c => !(c.isDigit && !(c == '0')))

/-- JavaScript truthiness of a JSON value. -/
def jsTruthy : Json → Bool
  | .null => false
  | .bool b => b
  | .num lex => !(numIsZero lex)
  | .str s => !(s == "")
  | .arr _ => true
  | .obj _ => true

mutual
/-- JavaScript `String(v)` coercion of a JSON value. -/
def jsToString : Json → String
  | .null => "null"
  | .bool true => "true"
  | .bool false => "false"
  | .num lex => lex
  | .str s => s
  | .arr xs => arrJoinComma xs
  | .obj _ => "[object Object]"

/-- `Array.prototype.toString`: elements joined with commas, `null` elements
rendered as the empty string. -/
def arrJoinComma : JsonList → String
  | .nil => ""
  | .cons v .nil => (match v with | .null => "" | _ => jsToString v)
  | .cons v (.cons w tl) =>
    (match v with | .null => "" | _ => jsToString v) ++ "," ++
      arrJoinComma (.cons w tl)
end

/-- Escape one character as inside a JSON string literal
produced by `JSON.stringify`. -/
def escapeChar (c : Char) : List Char :=
  if c == '"' then ['\\', '"']
  else if c == '\\' then ['\\', '\\']
  else if c == '\n' then ['\\', 'n']
  else if c == '\r' then ['\\', 'r']
  else if c == '\t' then ['\\', 't']
  else if c.toNat == 8 then ['\\', 'b']
  else if c.toNat == 12 then ['\\', 'f']
  else if c.toNat < 32 then
    ['\\', 'u', '0', '0', Nat.digitChar (c.toNat / 16), Nat.digitChar (c.toNat % 16)]
  else [c]

/-- Render a string as a JSON string literal. -/
def quoteString (s : String) : String :=
  String.mk ('"' :: (s.data.foldr (fun c acc => escapeChar c ++ acc) ['"']))

mutual
/-- `JSON.stringify` of a JSON value. -/
def jsonStringify : Json → String
  | .null => "null"
  | .bool true => "true"
  | .bool false => "false"
  | .num lex => lex
  | .str s => quoteString s
  | .arr xs => "[" ++ stringifyElems xs ++ "]"
  | .obj fs => String.mk [lbrace] ++ stringifyMembers fs ++ String.mk [rbrace]

/-- Array elements of `JSON.stringify`, comma separated. -/
def stringifyElems : JsonList → String
  | .nil => ""
  | .cons v .nil => jsonStringify v
  | .cons v (.cons w tl) =>
    jsonStringify v ++ "," ++ stringifyElems (.cons w tl)

/-- Object members of `JSON.stringify`, comma separated. -/
def stringifyMembers : JsonFields → String
  | .nil => ""
  | .cons k v .nil => quoteString k ++ ":" ++ jsonStringify v
  | .cons k v (.cons k2 v2 tl) =>
    quoteString k ++ ":" ++ jsonStringify v ++ "," ++
      stringifyMembers (.cons k2 v2 tl)
end

/-- JSON whitespace. -/
def isJsonWs (c : Char) : Bool :=
  c == ' ' || c == '\t' || c == '\n' || c == '\r'

/-- Drop leading JSON whitespace. -/
def skipWs : List Char → List Char
  | [] => []
  | c :: cs => if isJsonWs c then skipWs cs else c :: cs

/-- Value of a hexadecimal digit. -/
def hexVal (c : Char) : Option Nat :=
  if c.isDigit then some (c.toNat - 48)
  else if 'a' ≤ c && c ≤ 'f' then some (c.toNat - 87)
  else if 'A' ≤ c && c ≤ 'F' then some (c.toNat - 55)
  else none

/-- Parse the body of a JSON string literal (after the opening quote),
returning the decoded characters and the remaining input.  Fuel bounds the
recursion; one character is consumed per step. -/
def parseStrChars : Nat → List Char → Option (List Char × List Char)
  | 0, _ => none
  | _, [] => none
  | fuel + 1, c :: cs =>
    if c == '"' then some ([], cs)
    else if c == '\\' then
      match cs with
      | [] => none
      | e :: cs2 =>
        if e == '"' then
          (parseStrChars fuel cs2).map (fun p => ('"' :: p.1, p.2))
        else if e == '\\' then
          (parseStrChars fuel cs2).map (fun p => ('\\' :: p.1, p.2))
        else if e == '/' then
          (parseStrChars fuel cs2).map (fun p => ('/' :: p.1, p.2))
        else if e == 'b' then
          (parseStrChars fuel cs2).map (fun p => (Char.ofNat 8 :: p.1, p.2))
        else if e == 'f' then
          (parseStrChars fuel cs2).map (fun p => (Char.ofNat 12 :: p.1, p.2))
        else if e == 'n' then
          (parseStrChars fuel cs2).map (fun p => ('\n' :: p.1, p.2))
        else if e == 'r' then
          (parseStrChars fuel cs2).map (fun p => ('\r' :: p.1, p.2))
        else if e == 't' then
          (parseStrChars fuel cs2).map (fun p => ('\t' :: p.1, p.2))
        else if e == 'u' then
          match cs2 with
          | a :: b :: c2 :: d :: cs3 =>
            match hexVal a, hexVal b, hexVal c2, hexVal d with
            | some ha, some hb, some hc, some hd =>
              (parseStrChars fuel cs3).map
                (fun p => (Char.ofNat (((ha * 16 + hb) * 16 + hc) * 16 + hd) :: p.1, p.2))
            | _, _, _, _ => none
          | _ => none
        else none
    else if c.toNat < 32 then none
    else (parseStrChars fuel cs).map (fun p => (c :: p.1, p.2))

/-- Optional fraction part of a JSON number. -/
def parseFracPart : List Char → Option (List Char × List Char)
  | [] => some ([], [])
  | c :: cs =>
    if c == '.' then
      let ds := cs.takeWhile Char.isDigit
      if ds.isEmpty then none else some (c :: ds, cs.dropWhile Char.isDigit)
    else some ([], c :: cs)

/-- Optional exponent part of a JSON number. -/
def parseExpPart : List Char → Option (List Char × List Char)
  | [] => some ([], [])
  | c :: cs =>
    if c == 'e' || c == 'E' then
      match cs with
      | s :: rest =>
        if s == '+' || s == '-' then
          let ds := rest.takeWhile Char.isDigit
          if ds.isEmpty then none
          else some (c :: s :: ds, rest.dropWhile Char.isDigit)
        else
          let ds := cs.takeWhile Char.isDigit
          if ds.isEmpty then none
          else some (c :: ds, cs.dropWhile Char.isDigit)
      | [] => none
    else some ([], c :: cs)

/-- Parse a JSON number, returning its lexeme and the remaining input. -/
def parseNumber (l : List Char) : Option (List Char × List Char) :=
  let signSplit : List Char × List Char :=
    match l with
    | c :: cs => if c == '-' then ([c], cs) else ([], l)
    | [] => ([], [])
  match signSplit.2 with
  | [] => none
  | c :: cs =>
    let intAndRest : Option (List Char × List Char) :=
      if c == '0' then some ([c], cs)
      else if c.isDigit then
        some (c :: cs.takeWhile Char.isDigit, cs.dropWhile Char.isDigit)
      else none
    match intAndRest with
    | none => none
    | some (ip, l1) =>
      match parseFracPart l1 with
      | none => none
      | some (fr, l2) =>
        match parseExpPart l2 with
        | none => none
        | some (ex, l3) => some (signSplit.1 ++ ip ++ fr ++ ex, l3)

/-- Check for an expected keyword tail (for true/false/null). -/
def expectChars : List Char → List Char → Option (List Char)
  | [], l => some l
  | _ :: _, [] => none
  | e :: es, c :: cs => if e == c then expectChars es cs else none

mutual
/-- Parse one JSON value.  Fuel bounds recursion depth; `parseJson` supplies
enough fuel that no well-formed input of the given length runs out. -/
def parseVal : Nat → List Char → Option (Json × List Char)
  | 0, _ => none
  | fuel + 1, l =>
    match skipWs l with
    | [] => none
    | c :: cs =>
      if c == lbrace then
        match skipWs cs with
        | [] => none
        | d :: ds =>
          if d == rbrace then some (.obj .nil, ds)
          else
            match parseMembers fuel (d :: ds) .nil with
            | some (fs, r) => some (.obj fs, r)
            | none => none
      else if c == '[' then
        match skipWs cs with
        | [] => none
        | d :: ds =>
          if d == ']' then some (.arr .nil, ds)
          else
            match parseElems fuel (d :: ds) with
            | some (xs, r) => some (.arr xs, r)
            | none => none
      else if c == '"' then
        match parseStrChars (cs.length + 1) cs with
        | some (sc, r) => some (.str (String.mk sc), r)
        | none => none
      else if c == 't' then
        match expectChars ['r', 'u', 'e'] cs with
        | some r => some (.bool true, r)
        | none => none
      else if c == 'f' then
        match expectChars ['a', 'l', 's', 'e'] cs with
        | some r => some (.bool false, r)
        | none => none
      else if c == 'n' then
        match expectChars ['u', 'l', 'l'] cs with
        | some r => some (.null, r)
        | none => none
      else
        match parseNumber (c :: cs) with
        | some (lex, r) => some (.num (String.mk lex), r)
        | none => none

/-- Parse array elements (input positioned at the first element). -/
def parseElems : Nat → List Char → Option (JsonList × List Char)
  | 0, _ => none
  | fuel + 1, l =>
    match parseVal fuel l with
    | none => none
    | some (v, r) =>
      match skipWs r with
      | [] => none
      | c :: cs =>
        if c == ',' then
          match parseElems fuel cs with
          | some (vs, r2) => some (.cons v vs, r2)
          | none => none
        else if c == ']' then some (.cons v .nil, cs)
        else none

/-- Parse object members (input positioned at the first key), accumulating
fields with JavaScript duplicate-key semantics. -/
def parseMembers : Nat → List Char → JsonFields → Option (JsonFields × List Char)
  | 0, _, _ => none
  | fuel + 1, l, acc =>
    match skipWs l with
    | [] => none
    | c :: cs =>
      if c == '"' then
        match parseStrChars (cs.length + 1) cs with
        | none => none
        | some (kc, r) =>
          match skipWs r with
          | [] => none
          | d :: ds =>
            if d == ':' then
              match parseVal fuel ds with
              | none => none
              | some (v, r2) =>
                match skipWs r2 with
                | [] => none
                | e :: es =>
                  if e == ',' then
                    parseMembers fuel es (objInsert acc (String.mk kc) v)
                  else if e == rbrace then
                    some (objInsert acc (String.mk kc) v, es)
                  else none
            else none
      else none
end

/-- `JSON.parse`: parse a complete JSON document; trailing content other than
whitespace is an error (in the code this surfaces as a thrown exception,
modelled as `none`). -/
def parseJson (s : String) : Option Json :=
  match parseVal (2 * s.data.length + 4) s.data with
  | some (v, rest) => if (skipWs rest).isEmpty then some v else none
  | none => none

/-- Property read `o.k` on a non-null value: a field of an object, `undefined`
(here `none`) on primitives and arrays. -/
def propOf : Json → String → Option Json
  | .obj fs, k => lookupField fs k
  | _, _ => none

/-- Property read `o.k` with JavaScript error semantics: reading a property of
`null` throws a `TypeError`. -/
def jsProp : Json → String → Except Unit (Option Json)
  | .null, _ => .error ()
  | .bool b, k => .ok (propOf (.bool b) k)
  | .num n, k => .ok (propOf (.num n) k)
  | .str s, k => .ok (propOf (.str s) k)
  | .arr xs, k => .ok (propOf (.arr xs) k)
  | .obj fs, k => .ok (propOf (.obj fs) k)

/-- `a || d` where `a` is a possibly-undefined property value. -/
def jsOrJ (a : Option Json) (d : Json) : Json :=
  match a with
  | some v => if jsTruthy v then v else d
  | none => d

/-- `a || d` where `a` is a possibly-absent string (the empty string is
falsy). -/
def strOrElse (a : Option String) (d : String) : String :=
  match a with
  | some s => if s = "" then d else s
  | none => d

/-- `s.substring(0, n)`: the first `n` characters (all of `s` if shorter). -/
def substrTo (s : String) (n : Nat) : String :=
  String.mk (s.data.take n)

/-- Log severity, the TypeScript union 'INFO' | 'WARN' | 'ERROR'. -/
inductive Level : Type where
  | INFO : Level
  | WARN : Level
  | ERROR : Level
deriving DecidableEq

/-- `s.toUpperCase()` (ASCII, via `Char.toUpper`). -/
def strUpper (s : String) : String :=
  String.mk (s.data.map Char.toUpper)

/-- `s.toLowerCase()` (ASCII, via `Char.toLower`). -/
def strLower (s : String) : String :=
  String.mk (s.data.map Char.toLower)

/-- The explicit-level check of `determineLogLevel` (part_000 lines 165-167):
an uppercased level string that is exactly one of the three levels. -/
def levelOfString (u : String) : Option Level :=
  if u = "ERROR" then some .ERROR
  else if u = "WARN" then some .WARN
  else if u = "INFO" then some .INFO
  else none

/-- Lines 160-168 of part_000: the explicit `level` field branch.  The field
must be truthy; a non-string level uppercases to the empty string and never
matches. -/
def explicitLevel (message : Json) : Option Level :=
  match propOf message "level" with
  | some lv =>
    if jsTruthy lv then
      levelOfString (match lv with | .str s => strUpper s | _ => "")
    else none
  | none => none

/-- Bool-valued list prefix test. -/
def listIsPrefixOf : List Char → List Char → Bool
  | [], _ => true
  | _ :: _, [] => false
  | a :: as, b :: bs => a == b && listIsPrefixOf as bs

/-- Whether `needle` occurs as a contiguous sublist of the second argument. -/
def listContainsSub (needle : List Char) : List Char → Bool
  | [] => needle.isEmpty
  | c :: cs => listIsPrefixOf needle (c :: cs) || listContainsSub needle cs

/-- `hay.includes(needle)` on strings. -/
def strContains (hay needle : String) : Bool :=
  listContainsSub needle.data hay.data

/-- Lines 170-182 of part_000: content-based classification over the
lowercased `JSON.stringify` serialization, first match wins. -/
def contentLevel (message : Json) : Level :=
  let messageStr := strLower (jsonStringify message)
  if strContains messageStr "error" || strContains messageStr "exception"
      || strContains messageStr "fail" then .ERROR
  else if strContains messageStr "warn" || strContains messageStr "caution" then .WARN
  else .INFO

/-- `determineLogLevel` (part_000 lines 152-183). -/
def determineLogLevel (message : Json) : Level :=
  if jsTruthy message = false then .INFO
  else
    match explicitLevel message with
    | some l => l
    | none => contentLevel message

/-- A message as returned by SQS `ReceiveMessage`: both fields optional. -/
structure SqsMessage : Type where
  MessageId : Option String
  Body : Option String

/-- A normalized log entry (the records pushed in part_000 lines 62-76 and
84-95).  `timestamp`, `message`, `lambdaFunction` and `requestId` receive raw
payload values when present, so they are JSON values, not always strings. -/
structure LogEntry : Type where
  id : String
  timestamp : Json
  level : Level
  message : Json
  lambdaFunction : Json
  requestId : Json

/-- The argument of the outer `JSON.parse` (line 59): `message.Body || '{}'`. -/
def bodyParseArg (msg : SqsMessage) : String :=
  strOrElse msg.Body "\x7b\x7d"

/-- The argument of the inner `JSON.parse` (line 60):
`body.Message || '{}'`, a non-string truthy value being string-coerced. -/
def innerParseArg (bMessage : Option Json) : String :=
  match bMessage with
  | some v => if jsTruthy v then jsToString v else "\x7b\x7d"
  | none => "\x7b\x7d"

/-- The try-block of the message loop (part_000 lines 55-78): parse the outer
body, read `body.Message` (throws when the body is JSON `null`), parse the
inner message (throws on invalid JSON), then build the entry.  Property reads
on `snsMessage` (lines 68, 71, 73) throw when it is JSON `null`; `body`
property reads at lines 65 and 74 cannot throw because line 60 already read a
property of `body`.  Any thrown error is `Except.error`. -/
def buildNormal (msg : SqsMessage) (idx : Nat) (now : String) : Except Unit LogEntry :=
  match parseJson (bodyParseArg msg) with
  | none => .error ()
  | some body =>
    match jsProp body "Message" with
    | .error _ => .error ()
    | .ok bMessage =>
      match parseJson (innerParseArg bMessage) with
      | none => .error ()
      | some snsMessage =>
        match jsProp snsMessage "message" with
        | .error _ => .error ()
        | .ok smMessage =>
          match jsProp snsMessage "function" with
          | .error _ => .error ()
          | .ok smFunction =>
            match jsProp snsMessage "requestId" with
            | .error _ => .error ()
            | .ok smRequestId =>
              .ok {
                id := strOrElse msg.MessageId ("msg-" ++ Nat.repr idx),
                timestamp := jsOrJ (propOf body "Timestamp") (.str now),
                level := determineLogLevel snsMessage,
                message := jsOrJ smMessage (jsOrJ bMessage (.str "No message content")),
                lambdaFunction := jsOrJ smFunction (.str "unknown"),
                requestId := jsOrJ smRequestId
                  (jsOrJ (propOf body "MessageId") (.str "unknown"))
              }

/-- The catch-block entry (part_000 lines 84-95). -/
def errorEntry (msg : SqsMessage) (idx : Nat) (now : String) : LogEntry :=
  { id := strOrElse msg.MessageId ("msg-" ++ Nat.repr idx),
    timestamp := .str now,
    level := .ERROR,
    message := .str ("Error parsing message: " ++
      (match msg.Body with
       | some b => if b = "" then "No content" else substrTo b 100 ++ "..."
       | none => "No content")),
    lambdaFunction := .str "parser",
    requestId := .str (strOrElse msg.MessageId "unknown") }

/-- One iteration of the message loop: the try-block entry, or on a thrown
error the catch-block entry.  `idx` is `logs.length` at the top of the
iteration, which both branches use for the id fallback. -/
def processMessage (msg : SqsMessage) (idx : Nat) (now : String) : LogEntry :=
  match buildNormal msg idx now with
  | .ok e => e
  | .error _ => errorEntry msg idx now

/-- The message loop (part_000 lines 53-97): exactly one entry is pushed per
message, so `logs.length` equals the message's index. -/
def processMessages : List SqsMessage → Nat → String → List LogEntry
  | [], _, _ => []
  | m :: rest, idx, now => processMessage m idx now :: processMessages rest (idx + 1) now

/-- The mock entries returned when no queue URL is configured
(part_000 lines 114-133). -/
def mockLogs (now : String) : List LogEntry :=
  [ { id := "1", timestamp := .str now, level := .INFO,
      message := .str "This is mock data. Please configure SQS_QUEUE_URL in your environment variables.",
      lambdaFunction := .str "mockGenerator", requestId := .str "mock-req-123" },
    { id := "2", timestamp := .str now, level := .WARN,
      message := .str "SQS_QUEUE_URL environment variable is missing. Check your .env.local file.",
      lambdaFunction := .str "configChecker", requestId := .str "mock-req-124" } ]

/-- Result of the SQS `ReceiveMessage` call: a response whose `Messages`
field may be absent, or a thrown error (with a message when the thrown value
is an `Error` instance). -/
inductive SqsReceiveResult : Type where
  | ok : Option (List SqsMessage) → SqsReceiveResult
  | err : Option String → SqsReceiveResult

/-- The JSON response of `GET /logs` together with its HTTP status. -/
structure LogsResponse : Type where
  status : Nat
  success : Bool
  logs : Option (List LogEntry)
  message : Option String

/-- The `GET` handler of the logs route (part_000 lines 17-149).  `queueUrl`
is `SQS_QUEUE_URL` (empty when unset), `recv` the outcome of the SQS call
(only consulted when a queue URL is configured), `now` the wall-clock ISO
timestamp.  An SQS failure is rethrown as `SQS error: ...` (lines 102-108)
and caught by the outer handler (lines 136-148) producing a 500 response. -/
def GET (queueUrl : String) (recv : SqsReceiveResult) (now : String) : LogsResponse :=
  if queueUrl = "" then
    { status := 200, success := true, logs := some (mockLogs now), message := none }
  else
    match recv with
    | .err e =>
      { status := 500, success := false, logs := none,
        message := some ("Failed to fetch logs: SQS error: " ++ e.getD "Unknown error") }
    | .ok none => { status := 200, success := true, logs := some [], message := none }
    | .ok (some ms) =>
      if ms.length = 0 then
        { status := 200, success := true, logs := some [], message := none }
      else
        { status := 200, success := true, logs := some (processMessages ms 0 now), message := none }

/-- The JSON response of `DELETE /files` together with its HTTP status. -/
structure DeleteResponse : Type where
  status : Nat
  success : Bool
  message : String

/-- The `DELETE` handler of the S3 route (route.ts lines 102-131).  `rawBody`
is the request body text (`request.json()` parses it, throwing on invalid
JSON); destructuring `{ fileId }` throws on `null`; a falsy `fileId` yields
the 400 response before any `DeleteObjectCommand` is constructed.
`sendSucceeds` is the outcome of `s3Client.send`.  The second component is
the `Key` of the delete command sent to S3, `none` when no command was sent. -/
def DELETE (rawBody : String) (sendSucceeds : Bool) : DeleteResponse × Option Json :=
  match parseJson rawBody with
  | none => (⟨500, false, "Failed to delete file"⟩, none)
  | some j =>
    match jsProp j "fileId" with
    | .error _ => (⟨500, false, "Failed to delete file"⟩, none)
    | .ok fid =>
      match fid with
      | some v =>
        if jsTruthy v then
          if sendSucceeds then (⟨200, true, "File deleted successfully"⟩, some v)
          else (⟨500, false, "Failed to delete file"⟩, some v)
        else (⟨400, false, "File ID is required"⟩, none)
      | none => (⟨400, false, "File ID is required"⟩, none)

/-! ## Shared lemmas -/

theorem processMessages_length (ms : List SqsMessage) (idx : Nat) (now : String) :
    (processMessages ms idx now).length = ms.length := by
  induction ms generalizing idx with
  | nil => rfl
  | cons m rest ih => simpa [processMessages] using ih (idx + 1)

theorem buildNormal_body_none (mid : Option String) (idx : Nat) (now : String) :
    buildNormal ⟨mid, none⟩ idx now = .ok
      { id := strOrElse mid ("msg-" ++ Nat.repr idx),
        timestamp := .str now, level := .INFO,
        message := .str "No message content",
        lambdaFunction := .str "unknown",
        requestId := .str "unknown" } := rfl

theorem buildNormal_body_empty (mid : Option String) (idx : Nat) (now : String) :
    buildNormal ⟨mid, some ""⟩ idx now = .ok
      { id := strOrElse mid ("msg-" ++ Nat.repr idx),
        timestamp := .str now, level := .INFO,
        message := .str "No message content",
        lambdaFunction := .str "unknown",
        requestId := .str "unknown" } := rfl

/-! ## C2: one LogEntry per raw message, none dropped or added -/

/-- C2: for every batch of messages received from the queue, the returned log
list has exactly the batch's length; each message yields exactly one entry. -/
theorem getLogs_length_eq_batch_length (url : String) (ms : List SqsMessage)
    (now : String) (h : url ≠ "") :
    ((GET url (.ok (some ms)) now).logs).map List.length = some ms.length := by
  unfold GET
  rw [if_neg h]
  by_cases hm : ms.length = 0
  · simp [hm]
  · simp [hm, processMessages_length]

/-- Witness for C2 at a concrete two-message batch (one well-formed, one
degenerate). -/
theorem getLogs_length_eq_batch_length_witness :
    ((GET "q" (.ok (some [⟨none, none⟩, ⟨some "a", some "\x7b\x7d"⟩])) "T").logs).map
        List.length = some 2 :=
  getLogs_length_eq_batch_length "q" [⟨none, none⟩, ⟨some "a", some "\x7b\x7d"⟩] "T"
    (by decide)

/-! ## C6: transport-level queue failure -/

/-- C6: if the SQS receive call fails, the handler returns a 500 response
with `success: false`, a message describing the queue failure, and no `logs`
field — no partial entry list is emitted. -/
theorem getLogs_transport_failure (url : String) (e : Option String)
    (now : String) (h : url ≠ "") :
    GET url (.err e) now =
      { status := 500, success := false, logs := none,
        message := some ("Failed to fetch logs: SQS error: " ++ e.getD "Unknown error") } := by
  unfold GET
  rw [if_neg h]

/-- Witness for C6 at a concrete failing receive. -/
theorem getLogs_transport_failure_witness :
    GET "q" (.err (some "connect timeout")) "T" =
      { status := 500, success := false, logs := none,
        message := some "Failed to fetch logs: SQS error: connect timeout" } :=
  getLogs_transport_failure "q" (some "connect timeout") "T" (by decide)

/-! ## C7: double-encoded warn scenario -/

/-- The queue message body of the C7 scenario. -/
def c7Body : String :=
  "\x7b\"Message\": \"\x7b\\\"level\\\":\\\"warn\\\",\\\"requestId\\\":\\\"r1\\\"\x7d\", \"Timestamp\": \"2023-01-01T00:00:00Z\"\x7d"

/-- C7: the scenario message produces exactly one entry with level WARN,
requestId "r1" and the envelope timestamp (for any wall-clock time `now` and
any queue message id): the envelope timestamp beats the wall clock and the
payload requestId beats the envelope's. -/
theorem scenario_warn_entry (mid : Option String) (now : String) :
    processMessages [⟨mid, some c7Body⟩] 0 now =
      [{ id := strOrElse mid ("msg-" ++ Nat.repr 0),
         timestamp := .str "2023-01-01T00:00:00Z",
         level := .WARN,
         message := .str "\x7b\"level\":\"warn\",\"requestId\":\"r1\"\x7d",
         lambdaFunction := .str "unknown",
         requestId := .str "r1" }] := rfl

/-! ## C10: absent body takes the normal path -/

/-- C10: a message without a `Body` field can never reach the parse-failure
branch: the try-block succeeds (so the "No content" error text is
unreachable) and yields a normally-classified INFO entry with message
"No message content", lambdaFunction "unknown", requestId "unknown" and the
wall-clock timestamp. -/
theorem absent_body_normal_entry (mid : Option String) (idx : Nat) (now : String) :
    buildNormal ⟨mid, none⟩ idx now = .ok
      { id := strOrElse mid ("msg-" ++ Nat.repr idx),
        timestamp := .str now, level := .INFO,
        message := .str "No message content",
        lambdaFunction := .str "unknown",
        requestId := .str "unknown" } ∧
    processMessage ⟨mid, none⟩ idx now =
      { id := strOrElse mid ("msg-" ++ Nat.repr idx),
        timestamp := .str now, level := .INFO,
        message := .str "No message content",
        lambdaFunction := .str "unknown",
        requestId := .str "unknown" } :=
  ⟨buildNormal_body_none mid idx now, rfl⟩

/-! ## C3: the synthetic parse-failure entry -/

/-- C3: whenever processing a message throws, the resulting entry is the
single synthetic ERROR entry: message "Error parsing message: " plus the
first 100 characters of the raw body plus "...", lambdaFunction "parser",
requestId the message's own id or "unknown".  (The raw body is necessarily
present and non-empty on this path: an absent or empty body parses as the
default empty object and cannot throw.) -/
theorem parse_failure_entry (msg : SqsMessage) (idx : Nat) (now : String)
    (h : buildNormal msg idx now = .error ()) :
    ∃ b, msg.Body = some b ∧ b ≠ "" ∧
      processMessage msg idx now =
        { id := strOrElse msg.MessageId ("msg-" ++ Nat.repr idx),
          timestamp := .str now, level := .ERROR,
          message := .str ("Error parsing message: " ++ substrTo b 100 ++ "..."),
          lambdaFunction := .str "parser",
          requestId := .str (strOrElse msg.MessageId "unknown") } := by
  obtain ⟨mid, body?⟩ := msg
  match body? with
  | none => rw [buildNormal_body_none] at h; exact absurd h (by simp)
  | some b =>
    by_cases hb : b = ""
    · subst hb; rw [buildNormal_body_empty] at h; exact absurd h (by simp)
    · refine ⟨b, rfl, hb, ?_⟩
      unfold processMessage
      rw [h]
      unfold errorEntry
      simp [hb, String.append_assoc]

/-- Witness for C3 at a message whose outer body is not valid JSON. -/
theorem parse_failure_entry_witness :
    buildNormal ⟨some "id1", some "oops"⟩ 0 "T" = .error () ∧
      ∃ b, (⟨some "id1", some "oops"⟩ : SqsMessage).Body = some b ∧ b ≠ "" ∧
        processMessage ⟨some "id1", some "oops"⟩ 0 "T" =
          { id := strOrElse (some "id1") ("msg-" ++ Nat.repr 0),
            timestamp := .str "T", level := .ERROR,
            message := .str ("Error parsing message: " ++ substrTo b 100 ++ "..."),
            lambdaFunction := .str "parser",
            requestId := .str (strOrElse (some "id1") "unknown") } :=
  ⟨rfl, parse_failure_entry ⟨some "id1", some "oops"⟩ 0 "T" rfl⟩

/-! ## C1: invalid inner Message is NOT handled gracefully -/

/-- The C1 counterexample message: valid outer JSON, inner `Message` field a
string that is not valid JSON. -/
def c1Msg : SqsMessage := ⟨some "m1", some "\x7b\"Message\": \"notjson\"\x7d"⟩

/-- Counterexample to C1: for this message the outer body parses, the inner
`Message` string does not, and the poller produces the parse-failure ERROR
entry (lambdaFunction "parser"), not a normally-classified entry. -/
theorem inner_parse_failure_yields_error_entry :
    parseJson (bodyParseArg c1Msg) =
      some (.obj (.cons "Message" (.str "notjson") .nil)) ∧
    parseJson "notjson" = none ∧
    processMessage c1Msg 0 "T" = errorEntry c1Msg 0 "T" ∧
    (processMessage c1Msg 0 "T").level = .ERROR ∧
    (processMessage c1Msg 0 "T").lambdaFunction = .str "parser" :=
  ⟨rfl, rfl, rfl, rfl, rfl⟩

/-- C1 amended: when the outer body parses as an object whose `Message` field
is a non-empty string that is not valid JSON, the inner parse failure is
caught by the same handler as an outer failure and the message becomes the
synthetic parse-failure ERROR entry; the empty-structure default applies only
when `Message` is absent or falsy. -/
theorem inner_parse_failure_handling (msg : SqsMessage) (fs : JsonFields)
    (s : String) (idx : Nat) (now : String)
    (hbody : parseJson (bodyParseArg msg) = some (.obj fs))
    (hmsg : lookupField fs "Message" = some (.str s))
    (hne : s ≠ "")
    (hbad : parseJson s = none) :
    processMessage msg idx now = errorEntry msg idx now ∧
    (processMessage msg idx now).level = .ERROR ∧
    (processMessage msg idx now).lambdaFunction = .str "parser" := by
  have hmain : buildNormal msg idx now = .error () := by
    unfold buildNormal
    rw [hbody]
    simp only [jsProp, propOf, hmsg]
    have ht : jsTruthy (.str s) = true := by simp [jsTruthy, hne]
    simp [innerParseArg, ht, jsToString, hbad]
  have hpm : processMessage msg idx now = errorEntry msg idx now := by
    unfold processMessage
    rw [hmain]
  refine ⟨hpm, ?_, ?_⟩ <;> rw [hpm] <;> rfl

/-- Witness for the amended C1 at the counterexample message. -/
theorem inner_parse_failure_handling_witness :
    processMessage c1Msg 3 "T" = errorEntry c1Msg 3 "T" ∧
    (processMessage c1Msg 3 "T").level = .ERROR ∧
    (processMessage c1Msg 3 "T").lambdaFunction = .str "parser" :=
  inner_parse_failure_handling c1Msg (.cons "Message" (.str "notjson") .nil)
    "notjson" 3 "T" rfl rfl (by decide) rfl

/-! ## C4: explicit level field wins -/

/-- C4: a payload whose `level` field is a string uppercasing to exactly
INFO, WARN or ERROR classifies as that level, whatever else the payload
contains — the explicit branch suppresses content-based classification. -/
theorem explicit_level_priority (fs : JsonFields) (s : String) (l : Level)
    (hlv : lookupField fs "level" = some (.str s))
    (hl : levelOfString (strUpper s) = some l) :
    determineLogLevel (.obj fs) = l := by
  have hne : s ≠ "" := by
    intro h
    subst h
    simp [strUpper, levelOfString] at hl
  unfold determineLogLevel
  simp only [jsTruthy]
  unfold explicitLevel
  simp [propOf, hlv, jsTruthy, hne, hl]

/-- Witness for C4: an explicit "warn" level beats ERROR keywords in the
content. -/
theorem explicit_level_priority_witness :
    determineLogLevel
        (.obj (.cons "level" (.str "warn")
          (.cons "message" (.str "error: total failure exception") .nil))) = .WARN :=
  explicit_level_priority
    (.cons "level" (.str "warn")
      (.cons "message" (.str "error: total failure exception") .nil))
    "warn" .WARN rfl rfl

/-! ## C5: content-based classification fallback -/

/-- C5: without a valid explicit level the classifier is content-based over
the lowercased serialization of the whole payload (field names included),
first match wins: any of "error"/"exception"/"fail" gives ERROR, else
"warn"/"caution" gives WARN, else INFO; and every falsy payload (null, false,
zero, the empty string — in particular an absent or null payload) gives
INFO directly. -/
theorem content_classification :
    (∀ p : Json, jsTruthy p = true → explicitLevel p = none →
        determineLogLevel p = contentLevel p) ∧
    (∀ p : Json, jsTruthy p = true → explicitLevel p = none →
        (strContains (strLower (jsonStringify p)) "error" = true ∨
         strContains (strLower (jsonStringify p)) "exception" = true ∨
         strContains (strLower (jsonStringify p)) "fail" = true) →
        determineLogLevel p = .ERROR) ∧
    (∀ p : Json, jsTruthy p = true → explicitLevel p = none →
        strContains (strLower (jsonStringify p)) "error" = false →
        strContains (strLower (jsonStringify p)) "exception" = false →
        strContains (strLower (jsonStringify p)) "fail" = false →
        (strContains (strLower (jsonStringify p)) "warn" = true ∨
         strContains (strLower (jsonStringify p)) "caution" = true) →
        determineLogLevel p = .WARN) ∧
    (∀ p : Json, jsTruthy p = true → explicitLevel p = none →
        strContains (strLower (jsonStringify p)) "error" = false →
        strContains (strLower (jsonStringify p)) "exception" = false →
        strContains (strLower (jsonStringify p)) "fail" = false →
        strContains (strLower (jsonStringify p)) "warn" = false →
        strContains (strLower (jsonStringify p)) "caution" = false →
        determineLogLevel p = .INFO) ∧
    (∀ p : Json, jsTruthy p = false → determineLogLevel p = .INFO) := by
  have hbase : ∀ p : Json, jsTruthy p = true → explicitLevel p = none →
      determineLogLevel p = contentLevel p := by
    intro p ht hnl
    unfold determineLogLevel
    rw [ht, hnl]
    simp
  refine ⟨hbase, ?_, ?_, ?_, ?_⟩
  · intro p ht hnl hkw
    rw [hbase p ht hnl]
    unfold contentLevel
    rcases hkw with h | h | h <;> simp [h]
  · intro p ht hnl he1 he2 he3 hkw
    rw [hbase p ht hnl]
    unfold contentLevel
    rcases hkw with h | h <;> simp [he1, he2, he3, h]
  · intro p ht hnl he1 he2 he3 hw1 hw2
    rw [hbase p ht hnl]
    unfold contentLevel
    simp [he1, he2, he3, hw1, hw2]
  · intro p hf
    unfold determineLogLevel
    rw [hf]
    simp

/-- Witness for C5: a payload with no level field containing "Exception"
(capitalised, inside a value) classifies as ERROR; one containing only
"Caution" classifies as WARN; an empty object INFO; null INFO. -/
theorem content_classification_witness :
    determineLogLevel (.obj (.cons "note" (.str "an Exception was seen") .nil)) = .ERROR ∧
    determineLogLevel (.obj (.cons "note" (.str "Caution advised") .nil)) = .WARN ∧
    determineLogLevel (.obj .nil) = .INFO ∧
    determineLogLevel .null = .INFO :=
  ⟨content_classification.2.1 _ rfl rfl (Or.inr (Or.inl rfl)),
   content_classification.2.2.1 _ rfl rfl rfl rfl rfl (Or.inr rfl),
   content_classification.2.2.2.1 _ rfl rfl rfl rfl rfl rfl rfl,
   content_classification.2.2.2.2 _ rfl⟩

/-! ## C9: DELETE without a truthy fileId -/

/-- Counterexample to C9: the request body `null` is valid JSON and lacks a
truthy `fileId`, but destructuring `{ fileId }` from `null` throws, so the
handler answers 500 "Failed to delete file", not the claimed 400
"File ID is required".  (No delete command is sent, as the claim says.) -/
theorem delete_null_body_gives_500 :
    DELETE "null" true = (⟨500, false, "Failed to delete file"⟩, none) ∧
    parseJson "null" = some .null :=
  ⟨rfl, rfl⟩

/-- C9 amended: for every DELETE request whose JSON body parses to a
non-null value without a truthy `fileId` property, the handler returns 400
with success `false` and message "File ID is required", and no delete command
is sent to the object store (second component `none`), so the bucket is
unchanged.  (A body of `null` instead throws during destructuring and
produces the generic 500 response — still sending no delete command.) -/
theorem delete_missing_fileId (raw : String) (v : Json) (b : Bool)
    (hparse : parseJson raw = some v)
    (hnn : v ≠ .null)
    (hfid : ∀ f, propOf v "fileId" = some f → jsTruthy f = false) :
    DELETE raw b = (⟨400, false, "File ID is required"⟩, none) := by
  unfold DELETE
  rw [hparse]
  have hp : jsProp v "fileId" = .ok (propOf v "fileId") := by
    cases v with
    | null => exact absurd rfl hnn
    | bool b' => rfl
    | num n => rfl
    | str s => rfl
    | arr xs => rfl
    | obj fs => rfl
  dsimp only
  rw [hp]
  cases h : propOf v "fileId" with
  | none => simp
  | some f => simp [hfid f h]

/-- Witness for the amended C9 at the empty-object body. -/
theorem delete_missing_fileId_witness :
    DELETE "\x7b\x7d" true = (⟨400, false, "File ID is required"⟩, none) :=
  delete_missing_fileId "\x7b\x7d" (.obj .nil) true rfl
    (fun h => Json.noConfusion h) (fun _ h => Option.noConfusion h)

/-! ## Decimal rendering: `Nat.repr` is injective

Needed for C8: distinct batch indices give distinct `msg-<index>`
placeholders. -/

theorem toDigitsCore_append (fuel : Nat) : ∀ (n : Nat) (ds : List Char),
    Nat.toDigitsCore 10 fuel n ds = Nat.toDigitsCore 10 fuel n [] ++ ds := by
  induction fuel with
  | zero => intro n ds; rfl
  | succ f ih =>
    intro n ds
    simp only [Nat.toDigitsCore]
    by_cases h : n / 10 = 0
    · simp [h]
    · rw [if_neg h, if_neg h, ih (n / 10) (Nat.digitChar (n % 10) :: ds),
        ih (n / 10) [Nat.digitChar (n % 10)], List.append_assoc]
      rfl

/-- Decimal digits of `n`, most significant first: the pure specification of
`Nat.toDigitsCore` at base 10. -/
def pureDigits (n : Nat) : List Char :=
  if n < 10 then [Nat.digitChar n]
  else pureDigits (n / 10) ++ [Nat.digitChar (n % 10)]
termination_by n
decreasing_by exact Nat.div_lt_self (by omega) (by omega)

theorem toDigitsCore_eq_pureDigits (fuel : Nat) : ∀ n, n < fuel →
    Nat.toDigitsCore 10 fuel n [] = pureDigits n := by
  induction fuel with
  | zero => intro n h; omega
  | succ f ih =>
    intro n h
    simp only [Nat.toDigitsCore]
    by_cases h0 : n / 10 = 0
    · have hn : n < 10 := by omega
      rw [if_pos h0, pureDigits, if_pos hn, Nat.mod_eq_of_lt hn]
    · have hn : ¬ n < 10 := by omega
      have hdiv : n / 10 < f := by
        have hlt : n / 10 < n := Nat.div_lt_self (by omega) (by omega)
        omega
      rw [if_neg h0, toDigitsCore_append, ih (n / 10) hdiv]
      conv_rhs => rw [pureDigits]
      rw [if_neg hn]

/-- Numeric value of a decimal digit character. -/
def digitVal (c : Char) : Nat := c.toNat - 48

/-- Evaluate a decimal digit list with accumulator `a`. -/
def decValFrom (a : Nat) : List Char → Nat
  | [] => a
  | c :: cs => decValFrom (a * 10 + digitVal c) cs

theorem decValFrom_append (a : Nat) (xs ys : List Char) :
    decValFrom a (xs ++ ys) = decValFrom (decValFrom a xs) ys := by
  induction xs generalizing a with
  | nil => rfl
  | cons c cs ih =>
    show decValFrom (a * 10 + digitVal c) (cs ++ ys) =
      decValFrom (decValFrom (a * 10 + digitVal c) cs) ys
    exact ih _

theorem digitVal_digitChar (d : Nat) (h : d < 10) :
    digitVal (Nat.digitChar d) = d := by
  interval_cases d <;> rfl

theorem decValFrom_single (a : Nat) (c : Char) :
    decValFrom a [c] = a * 10 + digitVal c := rfl

theorem decValFrom_pureDigits (n : Nat) : decValFrom 0 (pureDigits n) = n := by
  induction n using pureDigits.induct with
  | case1 n h =>
    rw [pureDigits, if_pos h, decValFrom_single, digitVal_digitChar n h]
    omega
  | case2 n h ih =>
    rw [pureDigits, if_neg h, decValFrom_append, ih, decValFrom_single,
      digitVal_digitChar (n % 10) (Nat.mod_lt n (by omega))]
    omega

theorem pureDigits_injective {m n : Nat} (h : pureDigits m = pureDigits n) :
    m = n := by
  have hm := decValFrom_pureDigits m
  rw [h, decValFrom_pureDigits n] at hm
  omega

theorem string_append_data (a b : String) : (a ++ b).data = a.data ++ b.data := by
  cases a
  cases b
  rfl

theorem string_eq_of_data {a b : String} (h : a.data = b.data) : a = b := by
  cases a
  cases b
  exact congrArg String.mk h

theorem natRepr_injective {m n : Nat} (h : Nat.repr m = Nat.repr n) : m = n := by
  unfold Nat.repr Nat.toDigits at h
  rw [toDigitsCore_eq_pureDigits (m + 1) m (by omega),
    toDigitsCore_eq_pureDigits (n + 1) n (by omega)] at h
  apply pureDigits_injective
  have := congrArg String.data h
  simpa [List.asString] using this

theorem msgPrefix_injective {i j : Nat}
    (h : "msg-" ++ Nat.repr i = "msg-" ++ Nat.repr j) : i = j := by
  apply natRepr_injective
  have h2 := congrArg String.data h
  rw [string_append_data, string_append_data] at h2
  exact string_eq_of_data (List.append_cancel_left h2)

/-! ## C8: entry ids within one batch -/

theorem processMessage_id (msg : SqsMessage) (idx : Nat) (now : String) :
    (processMessage msg idx now).id =
      strOrElse msg.MessageId ("msg-" ++ Nat.repr idx) := by
  unfold processMessage buildNormal
  cases hp : parseJson (bodyParseArg msg) with
  | none => rfl
  | some body =>
    dsimp only
    cases hm : jsProp body "Message" with
    | error a => rfl
    | ok bMessage =>
      dsimp only
      cases hi : parseJson (innerParseArg bMessage) with
      | none => rfl
      | some sns =>
        dsimp only
        cases h1 : jsProp sns "message" with
        | error a => rfl
        | ok sm =>
          dsimp only
          cases h2 : jsProp sns "function" with
          | error a => rfl
          | ok sf =>
            dsimp only
            cases h3 : jsProp sns "requestId" with
            | error a => rfl
            | ok sr => rfl

theorem processMessages_get (ms : List SqsMessage) (idx : Nat) (now : String) :
    ∀ (i : Nat) (h1 : i < (processMessages ms idx now).length) (h2 : i < ms.length),
      (processMessages ms idx now).get ⟨i, h1⟩ =
        processMessage (ms.get ⟨i, h2⟩) (idx + i) now := by
  induction ms generalizing idx with
  | nil => intro i h1 h2; exact absurd h2 (by simp)
  | cons m rest ih =>
    intro i h1 h2
    cases i with
    | zero => rfl
    | succ n =>
      have h1' : n < (processMessages rest (idx + 1) now).length := by
        have := h1
        simp only [processMessages, List.length_cons] at this
        omega
      have h2' : n < rest.length := by
        simp only [List.length_cons] at h2
        omega
      have hrec := ih (idx + 1) n h1' h2'
      simp only [processMessages, List.get_cons_succ]
      rw [hrec]
      congr 1
      omega

theorem strOrElse_cases (o : Option String) (d : String) :
    (strOrElse o d = d ∧ ∀ a, o = some a → a ≠ "" → False) ∨
    (∃ a, o = some a ∧ a ≠ "" ∧ strOrElse o d = a) := by
  cases o with
  | none =>
    left
    exact ⟨rfl, fun a h _ => Option.noConfusion h⟩
  | some s =>
    by_cases hs : s = ""
    · subst hs
      left
      refine ⟨by simp [strOrElse], ?_⟩
      intro a ha hne
      injection ha with ha
      exact hne ha.symm
    · right
      exact ⟨s, rfl, hs, by simp [strOrElse, hs]⟩

/-- The C8 counterexample batch: a queue-assigned id that collides with the
synthetic placeholder of the second message. -/
def c8Batch : List SqsMessage :=
  [⟨some "msg-1", some "\x7b\x7d"⟩, ⟨none, some "\x7b\x7d"⟩]

/-- Counterexample to C8: in this batch the first entry takes its
queue-assigned id "msg-1" and the second falls back to the synthetic
placeholder "msg-1", so the ids of a poll batch are not pairwise distinct. -/
theorem duplicate_ids_in_batch :
    ((processMessages c8Batch 0 "T").map LogEntry.id) = ["msg-1", "msg-1"] ∧
    ¬ ((processMessages c8Batch 0 "T").map LogEntry.id).Pairwise
        (fun a b => a ≠ b) := by
  refine ⟨rfl, ?_⟩
  intro h
  rw [show ((processMessages c8Batch 0 "T").map LogEntry.id)
      = ["msg-1", "msg-1"] from rfl] at h
  exact (List.pairwise_cons.mp h).1 "msg-1" (by simp) rfl

/-- C8 amended: each entry id is the queue-assigned message id when present
and non-empty, else the placeholder `msg-<index>`; the ids of one poll batch
are pairwise distinct provided the non-empty queue-assigned ids are pairwise
distinct and none of them collides with a placeholder `msg-<j>` for an index
`j` of the batch. -/
theorem batch_ids_distinct (ms : List SqsMessage) (now : String)
    (hdist : List.Pairwise (fun m1 m2 => ∀ a b, m1.MessageId = some a → a ≠ "" →
        m2.MessageId = some b → b ≠ "" → a ≠ b) ms)
    (hsyn : ∀ m ∈ ms, ∀ a, m.MessageId = some a → a ≠ "" →
        ∀ j, j < ms.length → a ≠ "msg-" ++ Nat.repr j) :
    (∀ (i : Nat) (h1 : i < (processMessages ms 0 now).length) (h2 : i < ms.length),
        ((processMessages ms 0 now).get ⟨i, h1⟩).id =
          strOrElse (ms.get ⟨i, h2⟩).MessageId ("msg-" ++ Nat.repr i)) ∧
    ((processMessages ms 0 now).map LogEntry.id).Pairwise (fun a b => a ≠ b) := by
  have hids : ∀ (i : Nat) (h1 : i < (processMessages ms 0 now).length)
      (h2 : i < ms.length),
      ((processMessages ms 0 now).get ⟨i, h1⟩).id =
        strOrElse (ms.get ⟨i, h2⟩).MessageId ("msg-" ++ Nat.repr i) := by
    intro i h1 h2
    rw [processMessages_get ms 0 now i h1 h2, processMessage_id]
    simp
  refine ⟨hids, ?_⟩
  rw [List.pairwise_map, List.pairwise_iff_get]
  intro i j hij
  have hlen := processMessages_length ms 0 now
  have hi2 : (i : Nat) < ms.length := hlen ▸ i.isLt
  have hj2 : (j : Nat) < ms.length := hlen ▸ j.isLt
  have hgi := hids i i.isLt hi2
  have hgj := hids j j.isLt hj2
  have hij' : (i : Nat) ≠ (j : Nat) := Nat.ne_of_lt hij
  rw [show i = (⟨(i : Nat), i.isLt⟩ : Fin _) from rfl,
    show j = (⟨(j : Nat), j.isLt⟩ : Fin _) from rfl, hgi, hgj]
  rcases strOrElse_cases (ms.get ⟨(i : Nat), hi2⟩).MessageId
      ("msg-" ++ Nat.repr (i : Nat)) with ⟨hdi, _⟩ | ⟨a, hma, hane, hdi⟩ <;>
    rcases strOrElse_cases (ms.get ⟨(j : Nat), hj2⟩).MessageId
        ("msg-" ++ Nat.repr (j : Nat)) with ⟨hdj, _⟩ | ⟨b, hmb, hbne, hdj⟩ <;>
    rw [hdi, hdj]
  · intro hcontra
    exact hij' (msgPrefix_injective hcontra)
  · exact (hsyn (ms.get ⟨(j : Nat), hj2⟩) (ms.get_mem _ _)
      b hmb hbne (i : Nat) hi2).symm
  · exact hsyn (ms.get ⟨(i : Nat), hi2⟩) (ms.get_mem _ _)
      a hma hane (j : Nat) hj2
  · exact List.pairwise_iff_get.mp hdist ⟨(i : Nat), hi2⟩ ⟨(j : Nat), hj2⟩ hij
      a b hma hane hmb hbne

/-- Witness for the amended C8: a batch mixing a queue-assigned id and a
synthetic placeholder, with distinct resulting ids. -/
theorem batch_ids_distinct_witness :
    ((processMessages [⟨some "a", some "\x7b\x7d"⟩, ⟨none, none⟩] 0 "T").map
        LogEntry.id).Pairwise (fun a b => a ≠ b) :=
  (batch_ids_distinct [⟨some "a", some "\x7b\x7d"⟩, ⟨none, none⟩] "T"
    (by
      refine List.Pairwise.cons ?_ (List.Pairwise.cons ?_ List.Pairwise.nil)
      · intro m hm a b ha hane hb hbne
        simp only [List.mem_singleton] at hm
        subst hm
        exact absurd hb (by simp)
      · intro m hm
        simp at hm)
    (by
      intro m hm a ha hane j hj
      simp only [List.mem_cons, List.mem_singleton] at hm
      rcases hm with hm | hm | hm
      · subst hm
        injection ha with ha
        subst ha
        have hj2 : j < 2 := by simpa using hj
        interval_cases j <;> decide
      · subst hm
        exact absurd ha (by simp)
      · simp at hm)).2

end S3Demo
